import Mathlib

/-!
Shallow embedding of the LogicFlow engine scheduler (`Scheduler.ts`) and audit
recorder (`packages/engine/src/recorder/index.ts`), together with theorems
checking the design document's statements about them.

The dispatcher state (`SchedulerState`) carries the two per-instance maps of
the source (`nodeQueueMap`, `taskRunningMap`), the recorder's storage, a log of
emitted events (the Event Channel's `emit` is modelled as appending to this
log), a counter backing `createTaskId`, and a clock value backing `Date.now()`.
JavaScript `Map`s are modelled as association lists with the usual
get/set/delete operations; an absent object key is modelled as `none`.
-/

/-- Flow status values. Modelled from the spec: `constant/constant` is not in
the sources; the spec states a status is one of COMPLETED, INTERRUPTED. -/
inductive FlowStatus where
  | COMPLETED
  | INTERRUPTED
deriving DecidableEq

/-- A ready node `{executionId, nodeId}` as held in the ready queue. -/
structure NodeParam where
  executionId : String
  nodeId : String
deriving DecidableEq

/-- A launched task `{executionId, nodeId, taskId}` as held in the running
registry. -/
structure TaskParam where
  executionId : String
  nodeId : String
  taskId : String
deriving DecidableEq

/-- One entry of a result's `outgoing` list; the scheduler only reads its
`target` node id. -/
structure OutgoingItem where
  target : String
deriving DecidableEq

/-- The outcome of one node execution or resume attempt, restricted to the
fields the scheduler reads (`status`, `nodeType`, `properties`, `detail`).
Opaque payloads are modelled as optional strings. -/
structure ActionResult where
  status : FlowStatus
  nodeType : Option String
  properties : Option String
  detail : Option String
deriving DecidableEq

/-- The argument of the continuation callback `next`. -/
structure NextTaskParam where
  executionId : String
  nodeId : String
  taskId : String
  nodeType : Option String
  properties : Option String
  outgoing : List OutgoingItem
deriving DecidableEq

/-- The `extraInfo` payload built by the interruption path:
`{status, detail}`. -/
structure ExtraInfo where
  status : FlowStatus
  detail : Option String
deriving DecidableEq

/-- The argument type of `saveTaskResult`: a `NextTaskParam` plus an optional
`extraInfo` field (the source's `TaskResult`). -/
structure TaskResult where
  executionId : String
  nodeId : String
  taskId : String
  nodeType : Option String
  properties : Option String
  outgoing : List OutgoingItem
  extraInfo : Option ExtraInfo
deriving DecidableEq

/-- A persisted task record. The recorder stores whatever object it is given;
the `extraInfo` key is `none` when the stored object lacks it. -/
structure RecorderData where
  executionId : String
  taskId : String
  nodeId : String
  nodeType : Option String
  timestamp : Nat
  properties : Option String
  extraInfo : Option ExtraInfo
deriving DecidableEq

/-- The argument of `run` (launch): `{executionId, nodeId?, taskId?}`. -/
structure RunParams where
  executionId : String
  nodeId : Option String
  taskId : Option String
deriving DecidableEq

/-- The argument of `resume`, restricted to the fields the scheduler reads. -/
structure ResumeParam where
  executionId : String
  nodeId : String
  taskId : String
deriving DecidableEq

/-- Events emitted on the Event Channel. -/
inductive Event where
  | instanceComplete (executionId : String) (nodeId taskId : Option String)
      (status : FlowStatus)
  | instanceInterrupted (executionId : String) (status : FlowStatus)
      (nodeId taskId : String) (detail : Option String)
deriving DecidableEq

/-- Lookup in an association-list map (JavaScript `Map.get` / storage key
read). -/
def mapGet {α : Type} : List (String × α) → String → Option α
  | [], _ => none
  | (k', v') :: rest, k => if k' = k then some v' else mapGet rest k

/-- Update in an association-list map (JavaScript `Map.set`): replaces the
binding in place or appends a new one. -/
def mapSet {α : Type} : List (String × α) → String → α → List (String × α)
  | [], k, v => [(k, v)]
  | (k', v') :: rest, k, v =>
      if k' = k then (k, v) :: rest else (k', v') :: mapSet rest k v

/-- Deletion from an association-list map (JavaScript `Map.delete` / storage
key removal): drops every binding of the key (maps built through `mapSet` bind
each key at most once, so this agrees with deleting the single binding). -/
def mapDelete {α : Type} : List (String × α) → String → List (String × α)
  | [], _ => []
  | (k', v') :: rest, k =>
      if k' = k then mapDelete rest k else (k', v') :: mapDelete rest k

/-- Key membership (JavaScript `Map.has`). -/
def mapHas {α : Type} (m : List (String × α)) (k : String) : Bool :=
  (mapGet m k).isSome

/-- A value held in the recorder's backing storage: either a list of ids (the
global instance index or a per-execution task index) or one task record. -/
inductive StorageValue where
  | ids (l : List String)
  | taskData (r : RecorderData)
deriving DecidableEq

/-- Modelled from the spec: `util/storage` is not in the sources; the storage
backend is a string-keyed key-value store. -/
abbrev Storage := List (String × StorageValue)

def storage.getItem (s : Storage) (k : String) : Option StorageValue :=
  mapGet s k

def storage.setItem (s : Storage) (k : String) (v : StorageValue) : Storage :=
  mapSet s k v

def storage.removeItem (s : Storage) (k : String) : Storage :=
  mapDelete s k

/-- Read a stored id list; `none` when the key is absent (or holds a record,
which never happens for index keys in states the recorder builds). -/
def storage.getIds (s : Storage) (k : String) : Option (List String) :=
  match storage.getItem s k with
  | some (StorageValue.ids l) => some l
  | _ => none

def LOGICFLOW_ENGINE_INSTANCES : String := "LOGICFLOW_ENGINE_INSTANCES"

def Recorder.getExecutionTasks (s : Storage) (executionId : String) :
    Option (List String) :=
  storage.getIds s executionId

def Recorder.getTask (s : Storage) (taskId : String) : Option RecorderData :=
  match storage.getItem s taskId with
  | some (StorageValue.taskData r) => some r
  | _ => none

/-- Recorder.addTask: registers the execution id in the global instance index
on first sight, appends the task id to the execution's task index, and stores
the record under the task id. -/
def Recorder.addTask (s : Storage) (task : RecorderData) : Storage :=
  match Recorder.getExecutionTasks s task.executionId with
  | none =>
      let instanceList := (storage.getIds s LOGICFLOW_ENGINE_INSTANCES).getD []
      let s1 := storage.setItem s LOGICFLOW_ENGINE_INSTANCES
        (StorageValue.ids (instanceList ++ [task.executionId]))
      let s2 := storage.setItem s1 task.executionId
        (StorageValue.ids [task.taskId])
      storage.setItem s2 task.taskId (StorageValue.taskData task)
  | some instanceData =>
      let s1 := storage.setItem s task.executionId
        (StorageValue.ids (instanceData ++ [task.taskId]))
      storage.setItem s1 task.taskId (StorageValue.taskData task)

/-- Recorder.clear, exactly as in the source: for each execution id in the
global index it first removes the execution's index entry and only then reads
it back (getting nothing) to drive the per-task removal loop; finally it
removes the global index. -/
def Recorder.clear (s : Storage) : Storage :=
  let instanceList := (storage.getIds s LOGICFLOW_ENGINE_INSTANCES).getD []
  let s1 := instanceList.foldl (fun acc executionId =>
      let acc1 := storage.removeItem acc executionId
      let instanceData := (storage.getIds acc1 executionId).getD []
      instanceData.foldl (fun a taskId => storage.removeItem a taskId) acc1) s
  storage.removeItem s1 LOGICFLOW_ENGINE_INSTANCES

/-- The dispatcher's state. -/
structure SchedulerState where
  nodeQueueMap : List (String × List NodeParam)
  taskRunningMap : List (String × List (String × TaskParam))
  recorder : Storage
  events : List Event
  nextTaskId : Nat
  now : Nat
deriving DecidableEq

/-- Modelled from the spec: `util/ID`'s createTaskId mints a fresh task id;
modelled as reading a counter carried in the state. -/
def createTaskId (n : Nat) : String := "task-" ++ toString n

/-- The behaviour of the Node Provider's `execute` for each task: the result
the awaited `model.execute` call settles with (`none` models a node that
returns nothing and drives the flow only through the continuation). -/
abbrev Oracle := TaskParam → Option ActionResult

/-- The ready queue of one instance, read as a plain list (`[]` when the map
has no entry). -/
def queueOf (st : SchedulerState) (executionId : String) : List NodeParam :=
  (mapGet st.nodeQueueMap executionId).getD []

/-- Lookup of one running task entry. -/
def runningLookup (st : SchedulerState) (executionId taskId : String) :
    Option TaskParam :=
  match mapGet st.taskRunningMap executionId with
  | none => none
  | some rm => mapGet rm taskId

/-- Scheduler.addTask: ensures the instance has a queue, then pushes the node
at its tail. -/
def Scheduler.addTask (st : SchedulerState) (nodeParam : NodeParam) :
    SchedulerState :=
  let m := if mapHas st.nodeQueueMap nodeParam.executionId
    then st.nodeQueueMap
    else mapSet st.nodeQueueMap nodeParam.executionId []
  let currentTaskQueue := (mapGet m nodeParam.executionId).getD []
  { st with nodeQueueMap :=
      mapSet m nodeParam.executionId (currentTaskQueue ++ [nodeParam]) }

/-- Scheduler.getNextNode: shifts the head of the instance's queue; returns
`none` (leaving the state unchanged) when the queue is absent or empty. Note
an emptied queue's map entry is left in place. -/
def Scheduler.getNextNode (st : SchedulerState) (executionId : String) :
    Option NodeParam × SchedulerState :=
  match mapGet st.nodeQueueMap executionId with
  | none => (none, st)
  | some [] => (none, st)
  | some (currentTask :: rest) =>
      (some currentTask,
        { st with nodeQueueMap := mapSet st.nodeQueueMap executionId rest })

/-- Scheduler.hasRunningTask: `false` when the instance has no registry entry;
when the entry exists but is empty it is deleted and `false` is returned. -/
def Scheduler.hasRunningTask (st : SchedulerState) (executionId : String) :
    Bool × SchedulerState :=
  match mapGet st.taskRunningMap executionId with
  | none => (false, st)
  | some rm =>
      if rm.length = 0 then
        (false, { st with taskRunningMap := mapDelete st.taskRunningMap executionId })
      else (true, st)

/-- Scheduler.pushTaskToRunningMap. -/
def Scheduler.pushTaskToRunningMap (st : SchedulerState)
    (taskParam : TaskParam) : SchedulerState :=
  let m := if mapHas st.taskRunningMap taskParam.executionId
    then st.taskRunningMap
    else mapSet st.taskRunningMap taskParam.executionId []
  let runningMap := (mapGet m taskParam.executionId).getD []
  let m1 := mapSet m taskParam.executionId
    (mapSet runningMap taskParam.taskId taskParam)
  { st with taskRunningMap := m1 }

/-- Scheduler.removeTaskFromRunningMap: a falsy (empty) taskId or a missing
registry entry makes it a no-op. -/
def Scheduler.removeTaskFromRunningMap (st : SchedulerState)
    (taskParam : TaskParam) : SchedulerState :=
  if taskParam.taskId = "" then st
  else match mapGet st.taskRunningMap taskParam.executionId with
    | none => st
    | some runningMap =>
        let m1 := mapSet st.taskRunningMap taskParam.executionId
          (mapDelete runningMap taskParam.taskId)
        { st with taskRunningMap := m1 }

/-- Scheduler.interrupted: emits the instance-interrupted event. -/
def Scheduler.interrupted (st : SchedulerState) (execResult : ActionResult)
    (taskParam : TaskParam) : SchedulerState :=
  { st with events := st.events ++
      [Event.instanceInterrupted taskParam.executionId FlowStatus.INTERRUPTED
        taskParam.nodeId taskParam.taskId execResult.detail] }

/-- Scheduler.saveTaskResult: forwards only `executionId`, `taskId`, `nodeId`,
`nodeType`, `timestamp` and `properties` to the recorder; the incoming
`extraInfo` field is NOT forwarded, so the stored record's `extraInfo` is
absent. -/
def Scheduler.saveTaskResult (st : SchedulerState) (data : TaskResult) :
    SchedulerState :=
  let record : RecorderData :=
    { executionId := data.executionId, taskId := data.taskId,
      nodeId := data.nodeId, nodeType := data.nodeType,
      timestamp := st.now, properties := data.properties,
      extraInfo := none }
  { st with recorder := Recorder.addTask st.recorder record }

/-- Scheduler.exec: awaits the node's execute result; when it is present with
status INTERRUPTED, emits the interruption event, persists the result (with an
`extraInfo` argument that `saveTaskResult` then drops) and removes the task
from the running registry. It never enqueues anything and never calls `run`. -/
def Scheduler.exec (oracle : Oracle) (st : SchedulerState)
    (taskParam : TaskParam) : SchedulerState :=
  match oracle taskParam with
  | none => st
  | some execResult =>
      if execResult.status = FlowStatus.INTERRUPTED then
        let st1 := Scheduler.interrupted st execResult taskParam
        let st2 := Scheduler.saveTaskResult st1
          { executionId := taskParam.executionId, nodeId := taskParam.nodeId,
            taskId := taskParam.taskId, nodeType := execResult.nodeType,
            properties := execResult.properties, outgoing := [],
            extraInfo := some { status := execResult.status,
                                detail := execResult.detail } }
        Scheduler.removeTaskFromRunningMap st2 taskParam
      else st

/-- Scheduler.run (launch): pops the next ready node and executes it; when no
node is ready and no task is running, emits instance-complete with the
caller-supplied node/task ids. -/
def Scheduler.run (oracle : Oracle) (st : SchedulerState)
    (runParams : RunParams) : SchedulerState :=
  match Scheduler.getNextNode st runParams.executionId with
  | (some currentNode, st1) =>
      let taskId := createTaskId st1.nextTaskId
      let st2 := { st1 with nextTaskId := st1.nextTaskId + 1 }
      let taskParam : TaskParam :=
        { executionId := currentNode.executionId,
          nodeId := currentNode.nodeId, taskId := taskId }
      let st3 := Scheduler.pushTaskToRunningMap st2 taskParam
      Scheduler.exec oracle st3 taskParam
  | (none, st1) =>
      match Scheduler.hasRunningTask st1 runParams.executionId with
      | (true, st2) => st2
      | (false, st2) =>
          { st2 with events := st2.events ++
              [Event.instanceComplete runParams.executionId runParams.nodeId
                runParams.taskId FlowStatus.COMPLETED] }

/-- Scheduler.next (the continuation callback): enqueues each outgoing target,
persists the result, removes the settled task from the running registry and
re-invokes run with the settled node/task ids. -/
def Scheduler.next (oracle : Oracle) (st : SchedulerState)
    (data : NextTaskParam) : SchedulerState :=
  let st1 := if data.outgoing.length > 0 then
      data.outgoing.foldl (fun acc item =>
        Scheduler.addTask acc
          { executionId := data.executionId, nodeId := item.target }) st
    else st
  let st2 := Scheduler.saveTaskResult st1
    { executionId := data.executionId, nodeId := data.nodeId,
      taskId := data.taskId, nodeType := data.nodeType,
      properties := data.properties, outgoing := data.outgoing,
      extraInfo := none }
  let st3 := Scheduler.removeTaskFromRunningMap st2
    { executionId := data.executionId, nodeId := data.nodeId,
      taskId := data.taskId }
  Scheduler.run oracle st3
    { executionId := data.executionId, nodeId := some data.nodeId,
      taskId := some data.taskId }

/-- Scheduler.resume: inserts the task into the running registry and invokes
the node model's resume operation. The result that operation settles with
(`resumeResult`) is never inspected by this entry point in the source; any
continuation invocation made by the node itself is modelled as a separate call
to `Scheduler.next`. -/
def Scheduler.resume (st : SchedulerState) (resumeParam : ResumeParam)
    (resumeResult : Option ActionResult) : SchedulerState :=
  Scheduler.pushTaskToRunningMap st
    { executionId := resumeParam.executionId, nodeId := resumeParam.nodeId,
      taskId := resumeParam.taskId }

/-! Basic lemmas about the association-list map operations. -/

theorem mapGet_mapSet_self {α : Type} (m : List (String × α)) (k : String)
    (v : α) : mapGet (mapSet m k v) k = some v := by
  induction m with
  | nil => simp [mapGet, mapSet]
  | cons kv rest ih =>
      obtain ⟨k', v'⟩ := kv
      by_cases h : k' = k
      · simp [mapSet, mapGet, h]
      · simp [mapSet, mapGet, h, ih]

theorem mapGet_mapSet_ne {α : Type} (m : List (String × α)) {k k' : String}
    (v : α) (h : k' ≠ k) : mapGet (mapSet m k v) k' = mapGet m k' := by
  induction m with
  | nil => simp [mapGet, mapSet, Ne.symm h]
  | cons kv rest ih =>
      obtain ⟨k₀, v₀⟩ := kv
      by_cases h0 : k₀ = k
      · subst h0
        simp [mapSet, mapGet, Ne.symm h]
      · simp [mapSet, mapGet, h0, ih]

theorem mapSet_mapSet_self {α : Type} (m : List (String × α)) (k : String)
    (v w : α) : mapSet (mapSet m k v) k w = mapSet m k w := by
  induction m with
  | nil => simp [mapSet]
  | cons kv rest ih =>
      obtain ⟨k₀, v₀⟩ := kv
      by_cases h0 : k₀ = k
      · simp [mapSet, h0]
      · simp [mapSet, h0, ih]

theorem mapGet_mapDelete_self {α : Type} (m : List (String × α)) (k : String) :
    mapGet (mapDelete m k) k = none := by
  induction m with
  | nil => simp [mapGet, mapDelete]
  | cons kv rest ih =>
      obtain ⟨k₀, v₀⟩ := kv
      by_cases h0 : k₀ = k
      · simp [mapDelete, h0, ih]
      · simp [mapDelete, mapGet, h0, ih]

theorem mapGet_mapDelete_ne {α : Type} (m : List (String × α)) {k k' : String}
    (h : k' ≠ k) : mapGet (mapDelete m k) k' = mapGet m k' := by
  induction m with
  | nil => simp [mapGet, mapDelete]
  | cons kv rest ih =>
      obtain ⟨k₀, v₀⟩ := kv
      by_cases h0 : k₀ = k
      · subst h0
        simp [mapDelete, mapGet, Ne.symm h, ih]
      · simp [mapDelete, mapGet, h0, ih]

/-! State-update shorthands used to phrase characterization theorems. -/

def withQueueMap (st : SchedulerState)
    (m : List (String × List NodeParam)) : SchedulerState :=
  { st with nodeQueueMap := m }

def withRunningMap (st : SchedulerState)
    (m : List (String × List (String × TaskParam))) : SchedulerState :=
  { st with taskRunningMap := m }

def withEvents (st : SchedulerState) (l : List Event) : SchedulerState :=
  { st with events := l }

def withRecorder (st : SchedulerState) (s : Storage) : SchedulerState :=
  { st with recorder := s }

/-! Lemmas about the scheduler's elementary operations. -/

theorem addTask_eq (st : SchedulerState) (p : NodeParam) :
    Scheduler.addTask st p =
      withQueueMap st (mapSet st.nodeQueueMap p.executionId
        ((mapGet st.nodeQueueMap p.executionId).getD [] ++ [p])) := by
  unfold Scheduler.addTask withQueueMap
  cases hg : mapGet st.nodeQueueMap p.executionId with
  | none => simp [mapHas, hg, mapGet_mapSet_self, mapSet_mapSet_self]
  | some l => simp [mapHas, hg]

theorem queueOf_addTask (st : SchedulerState) (p : NodeParam) (eid : String) :
    queueOf (Scheduler.addTask st p) eid =
      queueOf st eid ++ (if p.executionId = eid then [p] else []) := by
  rw [addTask_eq]
  by_cases h : p.executionId = eid
  · subst h
    simp [queueOf, withQueueMap, mapGet_mapSet_self]
  · simp [queueOf, withQueueMap, h, mapGet_mapSet_ne _ _ (Ne.symm h)]

theorem addTask_frame (st : SchedulerState) (p : NodeParam) :
    (Scheduler.addTask st p).taskRunningMap = st.taskRunningMap ∧
    (Scheduler.addTask st p).recorder = st.recorder ∧
    (Scheduler.addTask st p).events = st.events ∧
    (Scheduler.addTask st p).nextTaskId = st.nextTaskId ∧
    (Scheduler.addTask st p).now = st.now := by
  rw [addTask_eq]
  exact ⟨rfl, rfl, rfl, rfl, rfl⟩

theorem queueOf_foldl_addTask (ps : List NodeParam) (st : SchedulerState)
    (eid : String) :
    queueOf (ps.foldl Scheduler.addTask st) eid =
      queueOf st eid ++ ps.filter (fun p => p.executionId == eid) := by
  induction ps generalizing st with
  | nil => simp
  | cons p ps ih =>
      rw [List.foldl_cons, ih, queueOf_addTask, List.filter_cons]
      by_cases h : p.executionId = eid
      · simp [h]
      · simp [h]

theorem foldl_addTask_frame (ps : List NodeParam) (st : SchedulerState) :
    (ps.foldl Scheduler.addTask st).taskRunningMap = st.taskRunningMap ∧
    (ps.foldl Scheduler.addTask st).recorder = st.recorder ∧
    (ps.foldl Scheduler.addTask st).events = st.events ∧
    (ps.foldl Scheduler.addTask st).nextTaskId = st.nextTaskId ∧
    (ps.foldl Scheduler.addTask st).now = st.now := by
  induction ps generalizing st with
  | nil => exact ⟨rfl, rfl, rfl, rfl, rfl⟩
  | cons p ps ih =>
      rw [List.foldl_cons]
      have h1 := ih (Scheduler.addTask st p)
      have h2 := addTask_frame st p
      exact ⟨h1.1.trans h2.1, h1.2.1.trans h2.2.1, h1.2.2.1.trans h2.2.2.1,
        h1.2.2.2.1.trans h2.2.2.2.1, h1.2.2.2.2.trans h2.2.2.2.2⟩

theorem pushTask_frame (st : SchedulerState) (tp : TaskParam) :
    (Scheduler.pushTaskToRunningMap st tp).nodeQueueMap = st.nodeQueueMap ∧
    (Scheduler.pushTaskToRunningMap st tp).recorder = st.recorder ∧
    (Scheduler.pushTaskToRunningMap st tp).events = st.events ∧
    (Scheduler.pushTaskToRunningMap st tp).nextTaskId = st.nextTaskId ∧
    (Scheduler.pushTaskToRunningMap st tp).now = st.now := by
  unfold Scheduler.pushTaskToRunningMap
  exact ⟨rfl, rfl, rfl, rfl, rfl⟩

theorem runningLookup_pushTask (st : SchedulerState) (tp : TaskParam) :
    runningLookup (Scheduler.pushTaskToRunningMap st tp)
      tp.executionId tp.taskId = some tp := by
  unfold Scheduler.pushTaskToRunningMap runningLookup
  cases hg : mapGet st.taskRunningMap tp.executionId with
  | none => simp [mapHas, hg, mapGet_mapSet_self]
  | some rm => simp [mapHas, hg, mapGet_mapSet_self]

theorem removeTask_frame (st : SchedulerState) (tp : TaskParam) :
    (Scheduler.removeTaskFromRunningMap st tp).nodeQueueMap = st.nodeQueueMap ∧
    (Scheduler.removeTaskFromRunningMap st tp).recorder = st.recorder ∧
    (Scheduler.removeTaskFromRunningMap st tp).events = st.events ∧
    (Scheduler.removeTaskFromRunningMap st tp).nextTaskId = st.nextTaskId ∧
    (Scheduler.removeTaskFromRunningMap st tp).now = st.now := by
  unfold Scheduler.removeTaskFromRunningMap
  split
  · exact ⟨rfl, rfl, rfl, rfl, rfl⟩
  · split
    · exact ⟨rfl, rfl, rfl, rfl, rfl⟩
    · exact ⟨rfl, rfl, rfl, rfl, rfl⟩

theorem runningLookup_removeTask (st : SchedulerState) (tp : TaskParam)
    (h : tp.taskId ≠ "") (eid tid : String) :
    runningLookup (Scheduler.removeTaskFromRunningMap st tp) eid tid =
      if eid = tp.executionId ∧ tid = tp.taskId then none
      else runningLookup st eid tid := by
  unfold Scheduler.removeTaskFromRunningMap runningLookup
  simp only [h, if_false]
  cases hg : mapGet st.taskRunningMap tp.executionId with
  | none =>
      by_cases he : eid = tp.executionId
      · subst he
        simp [hg]
      · simp [he]
  | some rm =>
      by_cases he : eid = tp.executionId
      · subst he
        simp only [mapGet_mapSet_self, hg]
        by_cases ht : tid = tp.taskId
        · subst ht
          simp [mapGet_mapDelete_self]
        · simp [ht, mapGet_mapDelete_ne _ ht]
      · simp [he, mapGet_mapSet_ne _ _ he]

theorem saveTask_frame (st : SchedulerState) (d : TaskResult) :
    (Scheduler.saveTaskResult st d).nodeQueueMap = st.nodeQueueMap ∧
    (Scheduler.saveTaskResult st d).taskRunningMap = st.taskRunningMap ∧
    (Scheduler.saveTaskResult st d).events = st.events ∧
    (Scheduler.saveTaskResult st d).nextTaskId = st.nextTaskId ∧
    (Scheduler.saveTaskResult st d).now = st.now :=
  ⟨rfl, rfl, rfl, rfl, rfl⟩

def withCounter (st : SchedulerState) (n : Nat) : SchedulerState :=
  { st with nextTaskId := n }

theorem exec_frame_none (oracle : Oracle) (st : SchedulerState)
    (tp : TaskParam) (h : oracle tp = none) :
    Scheduler.exec oracle st tp = st := by
  unfold Scheduler.exec
  simp [h]

theorem exec_frame_notInterrupted (oracle : Oracle) (st : SchedulerState)
    (tp : TaskParam) (r : ActionResult) (h1 : oracle tp = some r)
    (h2 : r.status ≠ FlowStatus.INTERRUPTED) :
    Scheduler.exec oracle st tp = st := by
  unfold Scheduler.exec
  simp [h1, h2]

theorem exec_interrupted_eq (oracle : Oracle) (st : SchedulerState)
    (tp : TaskParam) (r : ActionResult) (h1 : oracle tp = some r)
    (h2 : r.status = FlowStatus.INTERRUPTED) :
    Scheduler.exec oracle st tp =
      Scheduler.removeTaskFromRunningMap
        (withRecorder
          (withEvents st (st.events ++
            [Event.instanceInterrupted tp.executionId FlowStatus.INTERRUPTED
              tp.nodeId tp.taskId r.detail]))
          (Recorder.addTask st.recorder ⟨tp.executionId, tp.taskId, tp.nodeId,
            r.nodeType, st.now, r.properties, none⟩)) tp := by
  unfold Scheduler.exec Scheduler.interrupted Scheduler.saveTaskResult
  unfold withRecorder withEvents
  simp [h1, h2]

theorem exec_queueMap (oracle : Oracle) (st : SchedulerState)
    (tp : TaskParam) :
    (Scheduler.exec oracle st tp).nodeQueueMap = st.nodeQueueMap := by
  cases h1 : oracle tp with
  | none => rw [exec_frame_none oracle st tp h1]
  | some r =>
      by_cases h2 : r.status = FlowStatus.INTERRUPTED
      · rw [exec_interrupted_eq oracle st tp r h1 h2]
        exact (removeTask_frame _ _).1.trans rfl
      · rw [exec_frame_notInterrupted oracle st tp r h1 h2]

theorem exec_events (oracle : Oracle) (st : SchedulerState) (tp : TaskParam) :
    (Scheduler.exec oracle st tp).events = st.events ∨
    ∃ d, (Scheduler.exec oracle st tp).events =
      st.events ++ [Event.instanceInterrupted tp.executionId
        FlowStatus.INTERRUPTED tp.nodeId tp.taskId d] := by
  cases h1 : oracle tp with
  | none => exact Or.inl (by rw [exec_frame_none oracle st tp h1])
  | some r =>
      by_cases h2 : r.status = FlowStatus.INTERRUPTED
      · refine Or.inr ⟨r.detail, ?_⟩
        rw [exec_interrupted_eq oracle st tp r h1 h2]
        exact (removeTask_frame _ _).2.2.1.trans rfl
      · exact Or.inl (by rw [exec_frame_notInterrupted oracle st tp r h1 h2])

theorem getNextNode_empty (st : SchedulerState) (eid : String)
    (h : (mapGet st.nodeQueueMap eid).getD [] = []) :
    Scheduler.getNextNode st eid = (none, st) := by
  unfold Scheduler.getNextNode
  cases hg : mapGet st.nodeQueueMap eid with
  | none => rfl
  | some q =>
      cases q with
      | nil => rfl
      | cons c rest => rw [hg] at h; simp at h

theorem getNextNode_cons (st : SchedulerState) (eid : String) (c : NodeParam)
    (rest : List NodeParam)
    (h : mapGet st.nodeQueueMap eid = some (c :: rest)) :
    Scheduler.getNextNode st eid =
      (some c, withQueueMap st (mapSet st.nodeQueueMap eid rest)) := by
  unfold Scheduler.getNextNode withQueueMap
  rw [h]

theorem run_launch_eq (oracle : Oracle) (st : SchedulerState) (p : RunParams)
    (c : NodeParam) (rest : List NodeParam)
    (h : mapGet st.nodeQueueMap p.executionId = some (c :: rest)) :
    Scheduler.run oracle st p =
      Scheduler.exec oracle
        (Scheduler.pushTaskToRunningMap
          (withCounter (withQueueMap st (mapSet st.nodeQueueMap p.executionId
            rest)) (st.nextTaskId + 1))
          ⟨c.executionId, c.nodeId, createTaskId st.nextTaskId⟩)
        ⟨c.executionId, c.nodeId, createTaskId st.nextTaskId⟩ := by
  unfold Scheduler.run
  rw [getNextNode_cons st p.executionId c rest h]
  rfl

theorem run_complete_none (oracle : Oracle) (st : SchedulerState)
    (p : RunParams)
    (hq : (mapGet st.nodeQueueMap p.executionId).getD [] = [])
    (hr : mapGet st.taskRunningMap p.executionId = none) :
    Scheduler.run oracle st p =
      withEvents st (st.events ++
        [Event.instanceComplete p.executionId p.nodeId p.taskId
          FlowStatus.COMPLETED]) := by
  unfold Scheduler.run
  rw [getNextNode_empty st p.executionId hq]
  simp [Scheduler.hasRunningTask, hr, withEvents]

theorem run_complete_emptyRunning (oracle : Oracle) (st : SchedulerState)
    (p : RunParams)
    (hq : (mapGet st.nodeQueueMap p.executionId).getD [] = [])
    (hr : mapGet st.taskRunningMap p.executionId = some []) :
    Scheduler.run oracle st p =
      withEvents (withRunningMap st (mapDelete st.taskRunningMap
        p.executionId)) (st.events ++
        [Event.instanceComplete p.executionId p.nodeId p.taskId
          FlowStatus.COMPLETED]) := by
  unfold Scheduler.run
  rw [getNextNode_empty st p.executionId hq]
  simp [Scheduler.hasRunningTask, hr, withEvents, withRunningMap]

theorem run_stall (oracle : Oracle) (st : SchedulerState) (p : RunParams)
    (hq : (mapGet st.nodeQueueMap p.executionId).getD [] = [])
    (x : String × TaskParam) (xs : List (String × TaskParam))
    (hr : mapGet st.taskRunningMap p.executionId = some (x :: xs)) :
    Scheduler.run oracle st p = st := by
  unfold Scheduler.run
  rw [getNextNode_empty st p.executionId hq]
  simp [Scheduler.hasRunningTask, hr]

theorem run_complete_iff (oracle : Oracle) (st : SchedulerState)
    (p : RunParams) :
    (Scheduler.run oracle st p).events = st.events ++
        [Event.instanceComplete p.executionId p.nodeId p.taskId
          FlowStatus.COMPLETED] ↔
      ((mapGet st.nodeQueueMap p.executionId).getD [] = [] ∧
       (mapGet st.taskRunningMap p.executionId).getD [] = []) := by
  by_cases hq : (mapGet st.nodeQueueMap p.executionId).getD [] = []
  · cases hr : mapGet st.taskRunningMap p.executionId with
    | none =>
        rw [run_complete_none oracle st p hq hr]
        simp [withEvents, hq, hr]
    | some rm =>
        cases rm with
        | nil =>
            rw [run_complete_emptyRunning oracle st p hq hr]
            simp [withEvents, withRunningMap, hq, hr]
        | cons x xs =>
            rw [run_stall oracle st p hq x xs hr]
            constructor
            · intro hl
              exact absurd hl (by simp)
            · intro hcon
              simp [hr] at hcon
  · constructor
    · intro hl
      exfalso
      obtain ⟨q, hg⟩ : ∃ q, mapGet st.nodeQueueMap p.executionId = some q := by
        cases hgg : mapGet st.nodeQueueMap p.executionId with
        | none => rw [hgg] at hq; simp at hq
        | some q => exact ⟨q, rfl⟩
      cases q with
      | nil => rw [hg] at hq; simp at hq
      | cons c rest =>
          rw [run_launch_eq oracle st p c rest hg] at hl
          have hev : (Scheduler.pushTaskToRunningMap
              (withCounter (withQueueMap st (mapSet st.nodeQueueMap
                p.executionId rest)) (st.nextTaskId + 1))
              ⟨c.executionId, c.nodeId, createTaskId st.nextTaskId⟩).events =
              st.events :=
            (pushTask_frame _ _).2.2.1.trans rfl
          rcases exec_events oracle _
              ⟨c.executionId, c.nodeId, createTaskId st.nextTaskId⟩ with
            he | ⟨d, he⟩
          · rw [he, hev] at hl
            exact absurd hl (by simp)
          · rw [he, hev] at hl
            simp at hl
    · intro hcon
      exact absurd hcon.1 hq

/-- Repeatedly pop ready nodes of one instance through `getNextNode`,
collecting them in pop order; the fuel argument bounds the number of pops. -/
def drainN : SchedulerState → String → Nat → List NodeParam × SchedulerState
  | st, _, 0 => ([], st)
  | st, eid, n + 1 =>
      match Scheduler.getNextNode st eid with
      | (none, st1) => ([], st1)
      | (some nd, st1) =>
          let r := drainN st1 eid n
          (nd :: r.1, r.2)

theorem drainN_take (n : Nat) (st : SchedulerState) (eid : String) :
    (drainN st eid n).1 = (queueOf st eid).take n := by
  induction n generalizing st with
  | zero => simp [drainN]
  | succ n ih =>
      by_cases hq : (mapGet st.nodeQueueMap eid).getD [] = []
      · unfold drainN
        rw [getNextNode_empty st eid hq]
        simp [queueOf, hq]
      · obtain ⟨q, hg⟩ : ∃ q, mapGet st.nodeQueueMap eid = some q := by
          cases hgg : mapGet st.nodeQueueMap eid with
          | none => rw [hgg] at hq; simp at hq
          | some q => exact ⟨q, rfl⟩
        cases q with
        | nil => rw [hg] at hq; simp at hq
        | cons c rest =>
            unfold drainN
            rw [getNextNode_cons st eid c rest hg]
            have hq1 : queueOf (withQueueMap st (mapSet st.nodeQueueMap eid
                rest)) eid = rest := by
              simp [queueOf, withQueueMap, mapGet_mapSet_self]
            simp only [ih]
            rw [hq1]
            simp [queueOf, hg]

theorem queueOf_run_tail (oracle : Oracle) (st : SchedulerState)
    (p : RunParams) :
    queueOf (Scheduler.run oracle st p) p.executionId =
      (queueOf st p.executionId).tail := by
  by_cases hq : (mapGet st.nodeQueueMap p.executionId).getD [] = []
  · cases hr : mapGet st.taskRunningMap p.executionId with
    | none =>
        rw [run_complete_none oracle st p hq hr]
        simp [withEvents, queueOf, hq]
    | some rm =>
        cases rm with
        | nil =>
            rw [run_complete_emptyRunning oracle st p hq hr]
            simp [withEvents, withRunningMap, queueOf, hq]
        | cons x xs =>
            rw [run_stall oracle st p hq x xs hr]
            simp [queueOf, hq]
  · obtain ⟨q, hg⟩ : ∃ q, mapGet st.nodeQueueMap p.executionId = some q := by
      cases hgg : mapGet st.nodeQueueMap p.executionId with
      | none => rw [hgg] at hq; simp at hq
      | some q => exact ⟨q, rfl⟩
    cases q with
    | nil => rw [hg] at hq; simp at hq
    | cons c rest =>
        rw [run_launch_eq oracle st p c rest hg]
        have h1 := exec_queueMap oracle
          (Scheduler.pushTaskToRunningMap
            (withCounter (withQueueMap st (mapSet st.nodeQueueMap
              p.executionId rest)) (st.nextTaskId + 1))
            ⟨c.executionId, c.nodeId, createTaskId st.nextTaskId⟩)
          ⟨c.executionId, c.nodeId, createTaskId st.nextTaskId⟩
        have h2 := (pushTask_frame
          (withCounter (withQueueMap st (mapSet st.nodeQueueMap
            p.executionId rest)) (st.nextTaskId + 1))
          ⟨c.executionId, c.nodeId, createTaskId st.nextTaskId⟩).1
        rw [queueOf, h1, h2]
        simp [withCounter, withQueueMap, queueOf, mapGet_mapSet_self, hg]

theorem queueOf_foldl_outgoing (l : List OutgoingItem) (st : SchedulerState)
    (xid eid : String) :
    queueOf (l.foldl (fun acc item =>
        Scheduler.addTask acc ⟨xid, item.target⟩) st) eid =
      queueOf st eid ++ (if xid = eid then
        l.map (fun item => (⟨xid, item.target⟩ : NodeParam)) else []) := by
  induction l generalizing st with
  | nil => simp
  | cons o os ih =>
      rw [List.foldl_cons, ih, queueOf_addTask]
      by_cases h : xid = eid
      · simp [h]
      · simp [h]

theorem foldl_outgoing_frame (l : List OutgoingItem) (st : SchedulerState)
    (xid : String) :
    (l.foldl (fun acc item =>
        Scheduler.addTask acc ⟨xid, item.target⟩) st).taskRunningMap =
      st.taskRunningMap ∧
    (l.foldl (fun acc item =>
        Scheduler.addTask acc ⟨xid, item.target⟩) st).recorder =
      st.recorder ∧
    (l.foldl (fun acc item =>
        Scheduler.addTask acc ⟨xid, item.target⟩) st).events = st.events ∧
    (l.foldl (fun acc item =>
        Scheduler.addTask acc ⟨xid, item.target⟩) st).nextTaskId =
      st.nextTaskId ∧
    (l.foldl (fun acc item =>
        Scheduler.addTask acc ⟨xid, item.target⟩) st).now = st.now := by
  induction l generalizing st with
  | nil => exact ⟨rfl, rfl, rfl, rfl, rfl⟩
  | cons o os ih =>
      rw [List.foldl_cons]
      have h1 := ih (Scheduler.addTask st ⟨xid, o.target⟩)
      have h2 := addTask_frame st ⟨xid, o.target⟩
      exact ⟨h1.1.trans h2.1, h1.2.1.trans h2.2.1, h1.2.2.1.trans h2.2.2.1,
        h1.2.2.2.1.trans h2.2.2.2.1, h1.2.2.2.2.trans h2.2.2.2.2⟩

theorem removeTask_runningMap (st : SchedulerState) (tp : TaskParam) :
    (Scheduler.removeTaskFromRunningMap st tp).taskRunningMap =
      if tp.taskId = "" then st.taskRunningMap
      else match mapGet st.taskRunningMap tp.executionId with
        | none => st.taskRunningMap
        | some runningMap => mapSet st.taskRunningMap tp.executionId
            (mapDelete runningMap tp.taskId) := by
  unfold Scheduler.removeTaskFromRunningMap
  by_cases h : tp.taskId = ""
  · simp [h]
  · simp only [h, if_neg, if_false]
    cases hg : mapGet st.taskRunningMap tp.executionId with
    | none => rfl
    | some rm => rfl

/-! Concrete fixtures used by the evaluation theorems and witnesses. -/

/-- An empty dispatcher state (fresh engine, clock at 1000). -/
def st0 : SchedulerState := ⟨[], [], [], [], 0, 1000⟩

/-- A Node Provider whose every execution settles with an INTERRUPTED
result carrying a detail payload. -/
def oracleInterrupt : Oracle :=
  fun _ => some ⟨FlowStatus.INTERRUPTED, some "custom", some "props",
    some "d1"⟩

/-- A state with one running task `t1` of instance `e1`. -/
def stRun1 : SchedulerState :=
  Scheduler.pushTaskToRunningMap st0 ⟨"e1", "n1", "t1"⟩

/-- C1: evaluating the interruption path at a concrete interrupted task
(instance e1, node n1, task t1, result `{status: INTERRUPTED, detail: d1}`):
the TaskRecord persisted for t1 carries executionId, taskId, nodeId, nodeType,
timestamp and properties, but its `extraInfo` is absent (`none`), not
`{status: INTERRUPTED, detail: d1}` as claimed — `saveTaskResult` drops the
extraInfo payload that `exec` builds before calling the recorder. -/
theorem C1_interrupted_record_extraInfo_dropped :
    Recorder.getTask (Scheduler.exec oracleInterrupt stRun1
        ⟨"e1", "n1", "t1"⟩).recorder "t1" =
      some ⟨"e1", "t1", "n1", some "custom", 1000, some "props", none⟩ := by
  decide

/-- C2: a launch (run) call emits the instance-complete event exactly when, at
the moment of the call, the instance's ready queue is empty or absent and its
running registry is empty or absent; and in particular a launch immediately
following an addTask for that instance finds a non-empty queue and does not
emit instance-complete. -/
theorem C2_run_complete_iff_settled (oracle : Oracle) (st : SchedulerState)
    (p : RunParams) (n : String) :
    ((Scheduler.run oracle st p).events = st.events ++
        [Event.instanceComplete p.executionId p.nodeId p.taskId
          FlowStatus.COMPLETED] ↔
      ((mapGet st.nodeQueueMap p.executionId).getD [] = [] ∧
       (mapGet st.taskRunningMap p.executionId).getD [] = [])) ∧
    ¬ ((Scheduler.run oracle (Scheduler.addTask st ⟨p.executionId, n⟩)
          p).events =
        (Scheduler.addTask st ⟨p.executionId, n⟩).events ++
          [Event.instanceComplete p.executionId p.nodeId p.taskId
            FlowStatus.COMPLETED]) := by
  constructor
  · exact run_complete_iff oracle st p
  · intro hl
    have h2 := (run_complete_iff oracle
      (Scheduler.addTask st ⟨p.executionId, n⟩) p).mp hl
    have h3 : queueOf (Scheduler.addTask st ⟨p.executionId, n⟩)
        p.executionId = queueOf st p.executionId ++ [⟨p.executionId, n⟩] := by
      rw [queueOf_addTask]
      simp
    have h4 : queueOf (Scheduler.addTask st ⟨p.executionId, n⟩)
        p.executionId = [] := h2.1
    rw [h3] at h4
    simp at h4

/-- C3: the ready queue is FIFO per instance: a batch of addTask calls
appends its nodes (those of the given instance) in call order, iterated
popping through getNextNode returns them head-first in exactly that order,
and every launch (run) call consumes exactly the head of the instance's
queue, leaving the tail. -/
theorem C3_fifo_order (st : SchedulerState) (ps : List NodeParam)
    (eid : String) (n : Nat) :
    (drainN (ps.foldl Scheduler.addTask st) eid n).1 =
      (queueOf st eid ++ ps.filter (fun p => p.executionId == eid)).take n ∧
    (∀ oracle : Oracle, ∀ p : RunParams,
      queueOf (Scheduler.run oracle st p) p.executionId =
        (queueOf st p.executionId).tail) := by
  constructor
  · rw [drainN_take, queueOf_foldl_addTask]
  · intro oracle p
    exact queueOf_run_tail oracle st p

/-- C4: when a task's execute result has status INTERRUPTED, the dispatcher
enqueues nothing (ready-queue map untouched), removes exactly that task's
entry from the running registry (other entries preserved), emits the
instance-interrupted event with executionId, nodeId, taskId and the result's
detail, persists exactly one record, and mints no task id — i.e. it does not
re-invoke launch. -/
theorem C4_exec_interrupted_effects (oracle : Oracle) (st : SchedulerState)
    (tp : TaskParam) (r : ActionResult) (h1 : oracle tp = some r)
    (h2 : r.status = FlowStatus.INTERRUPTED) (h3 : tp.taskId ≠ "") :
    (Scheduler.exec oracle st tp).nodeQueueMap = st.nodeQueueMap ∧
    runningLookup (Scheduler.exec oracle st tp) tp.executionId tp.taskId =
      none ∧
    (∀ eid tid, runningLookup (Scheduler.exec oracle st tp) eid tid =
      if eid = tp.executionId ∧ tid = tp.taskId then none
      else runningLookup st eid tid) ∧
    (Scheduler.exec oracle st tp).events = st.events ++
      [Event.instanceInterrupted tp.executionId FlowStatus.INTERRUPTED
        tp.nodeId tp.taskId r.detail] ∧
    (Scheduler.exec oracle st tp).recorder = Recorder.addTask st.recorder
      ⟨tp.executionId, tp.taskId, tp.nodeId, r.nodeType, st.now,
        r.properties, none⟩ ∧
    (Scheduler.exec oracle st tp).nextTaskId = st.nextTaskId := by
  rw [exec_interrupted_eq oracle st tp r h1 h2]
  have hall : ∀ eid tid,
      runningLookup (Scheduler.removeTaskFromRunningMap
        (withRecorder (withEvents st (st.events ++
          [Event.instanceInterrupted tp.executionId FlowStatus.INTERRUPTED
            tp.nodeId tp.taskId r.detail]))
          (Recorder.addTask st.recorder ⟨tp.executionId, tp.taskId,
            tp.nodeId, r.nodeType, st.now, r.properties, none⟩)) tp) eid
        tid =
      if eid = tp.executionId ∧ tid = tp.taskId then none
      else runningLookup st eid tid := by
    intro eid tid
    rw [runningLookup_removeTask _ tp h3 eid tid]
    rfl
  refine ⟨(removeTask_frame _ _).1.trans rfl, ?_, hall, ?_, ?_, ?_⟩
  · have := hall tp.executionId tp.taskId
    simpa using this
  · exact (removeTask_frame _ _).2.2.1.trans rfl
  · exact (removeTask_frame _ _).2.1.trans rfl
  · exact (removeTask_frame _ _).2.2.2.1.trans rfl

/-- C4 witness: instantiation of `C4_exec_interrupted_effects` at the fixture
state with running task t1 and the always-interrupting Node Provider. -/
theorem C4_exec_interrupted_effects_witness :
    (Scheduler.exec oracleInterrupt stRun1
        ⟨"e1", "n1", "t1"⟩).nodeQueueMap = stRun1.nodeQueueMap ∧
    runningLookup (Scheduler.exec oracleInterrupt stRun1
        ⟨"e1", "n1", "t1"⟩) "e1" "t1" = none ∧
    (∀ eid tid, runningLookup (Scheduler.exec oracleInterrupt stRun1
        ⟨"e1", "n1", "t1"⟩) eid tid =
      if eid = "e1" ∧ tid = "t1" then none
      else runningLookup stRun1 eid tid) ∧
    (Scheduler.exec oracleInterrupt stRun1
        ⟨"e1", "n1", "t1"⟩).events = stRun1.events ++
      [Event.instanceInterrupted "e1" FlowStatus.INTERRUPTED "n1" "t1"
        (some "d1")] ∧
    (Scheduler.exec oracleInterrupt stRun1
        ⟨"e1", "n1", "t1"⟩).recorder = Recorder.addTask stRun1.recorder
      ⟨"e1", "t1", "n1", some "custom", stRun1.now, some "props", none⟩ ∧
    (Scheduler.exec oracleInterrupt stRun1
        ⟨"e1", "n1", "t1"⟩).nextTaskId = stRun1.nextTaskId :=
  C4_exec_interrupted_effects oracleInterrupt stRun1 ⟨"e1", "n1", "t1"⟩
    ⟨FlowStatus.INTERRUPTED, some "custom", some "props", some "d1"⟩
    rfl rfl (by decide)

/-- C5: an invocation of the continuation `next` equals a launch (run)
re-invocation — passing the settled nodeId and taskId — from an intermediate
state in which each entry of the result's outgoing list has been enqueued via
addTask, in order, with the same executionId and that entry's target (only
that instance's queue grows), exactly one TaskRecord has been persisted, the
settled task's running-registry entry has been removed, and no event was
emitted nor task id minted. -/
theorem C5_next_effects (oracle : Oracle) (st : SchedulerState)
    (data : NextTaskParam) :
    ∃ st2 : SchedulerState,
      Scheduler.next oracle st data =
        Scheduler.run oracle st2 ⟨data.executionId, some data.nodeId,
          some data.taskId⟩ ∧
      (∀ eid, queueOf st2 eid = queueOf st eid ++
        (if data.executionId = eid then
          data.outgoing.map (fun item => ⟨data.executionId, item.target⟩)
        else [])) ∧
      st2.recorder = Recorder.addTask st.recorder ⟨data.executionId,
        data.taskId, data.nodeId, data.nodeType, st.now, data.properties,
        none⟩ ∧
      st2.taskRunningMap = (Scheduler.removeTaskFromRunningMap st
        ⟨data.executionId, data.nodeId, data.taskId⟩).taskRunningMap ∧
      st2.events = st.events ∧
      st2.nextTaskId = st.nextTaskId := by
  refine ⟨Scheduler.removeTaskFromRunningMap (Scheduler.saveTaskResult
    (if data.outgoing.length > 0 then data.outgoing.foldl (fun acc item =>
        Scheduler.addTask acc ⟨data.executionId, item.target⟩) st
      else st)
    ⟨data.executionId, data.nodeId, data.taskId, data.nodeType,
      data.properties, data.outgoing, none⟩)
    ⟨data.executionId, data.nodeId, data.taskId⟩, ?_, ?_, ?_, ?_, ?_, ?_⟩
  · unfold Scheduler.next
    rfl
  · intro eid
    have hQ : queueOf (Scheduler.removeTaskFromRunningMap
        (Scheduler.saveTaskResult
          (if data.outgoing.length > 0 then data.outgoing.foldl
              (fun acc item =>
                Scheduler.addTask acc ⟨data.executionId, item.target⟩) st
            else st)
          ⟨data.executionId, data.nodeId, data.taskId, data.nodeType,
            data.properties, data.outgoing, none⟩)
        ⟨data.executionId, data.nodeId, data.taskId⟩) eid =
        queueOf (if data.outgoing.length > 0 then data.outgoing.foldl
            (fun acc item =>
              Scheduler.addTask acc ⟨data.executionId, item.target⟩) st
          else st) eid := by
      unfold queueOf
      rw [(removeTask_frame _ _).1, (saveTask_frame _ _).1]
    rw [hQ]
    by_cases h : data.outgoing.length > 0
    · rw [if_pos h, queueOf_foldl_outgoing]
    · rw [if_neg h]
      have hnil : data.outgoing = [] := by
        simpa using h
      simp [hnil]
  · rw [(removeTask_frame _ _).2.1]
    by_cases h : data.outgoing.length > 0
    · simp only [if_pos h]
      have hrec := (foldl_outgoing_frame data.outgoing st
        data.executionId).2.1
      have hnow := (foldl_outgoing_frame data.outgoing st
        data.executionId).2.2.2.2
      unfold Scheduler.saveTaskResult
      rw [hrec, hnow]
    · simp only [if_neg h]
      rfl
  · rw [removeTask_runningMap, removeTask_runningMap]
    have hR : (Scheduler.saveTaskResult
        (if data.outgoing.length > 0 then data.outgoing.foldl
            (fun acc item =>
              Scheduler.addTask acc ⟨data.executionId, item.target⟩) st
          else st)
        ⟨data.executionId, data.nodeId, data.taskId, data.nodeType,
          data.properties, data.outgoing, none⟩).taskRunningMap =
        st.taskRunningMap := by
      rw [(saveTask_frame _ _).2.1]
      by_cases h : data.outgoing.length > 0
      · rw [if_pos h]
        exact (foldl_outgoing_frame data.outgoing st data.executionId).1
      · rw [if_neg h]
    rw [hR]
  · rw [(removeTask_frame _ _).2.2.1, (saveTask_frame _ _).2.2.1]
    by_cases h : data.outgoing.length > 0
    · rw [if_pos h]
      exact (foldl_outgoing_frame data.outgoing st data.executionId).2.2.1
    · rw [if_neg h]
  · rw [(removeTask_frame _ _).2.2.2.1, (saveTask_frame _ _).2.2.2.1]
    by_cases h : data.outgoing.length > 0
    · rw [if_pos h]
      exact (foldl_outgoing_frame data.outgoing st
        data.executionId).2.2.2.1
    · rw [if_neg h]

/-- C6 counterexample: addTask is not an idempotent append — calling it twice
with the same arguments from the empty state yields a state with a two-entry
queue, different from calling it once. -/
theorem C6_counterexample_addTask_not_idempotent :
    Scheduler.addTask (Scheduler.addTask st0 ⟨"e1", "n1"⟩) ⟨"e1", "n1"⟩ ≠
      Scheduler.addTask st0 ⟨"e1", "n1"⟩ := by
  decide

/-- C6 amended: addTask(executionId, nodeId) appends one entry at the tail of
that instance's ready queue on each call (so a repeated call appends a second
copy rather than being idempotent), and in every case it has no effect on any
state other than that instance's ready queue: other instances' queues, the
running registry, the recorder, the event log and the task id counter are
unchanged. -/
theorem C6_addTask_pure_append (st : SchedulerState) (p : NodeParam) :
    Scheduler.addTask st p = withQueueMap st (mapSet st.nodeQueueMap
      p.executionId (queueOf st p.executionId ++ [p])) ∧
    (∀ eid, queueOf (Scheduler.addTask st p) eid = queueOf st eid ++
      (if p.executionId = eid then [p] else [])) :=
  ⟨addTask_eq st p, fun eid => queueOf_addTask st p eid⟩

/-- C7: the resume entry point never inspects the result its node's resume
operation settles with: even when that result has status INTERRUPTED, no
event is emitted and nothing is persisted through the execute path's
interruption handling, the dispatcher state is the same whatever the result
is, and the only effect is re-inserting the task into the running
registry. -/
theorem C7_resume_ignores_result (st : SchedulerState) (p : ResumeParam)
    (res : ActionResult) (h : res.status = FlowStatus.INTERRUPTED) :
    (Scheduler.resume st p (some res)).events = st.events ∧
    (Scheduler.resume st p (some res)).recorder = st.recorder ∧
    (∀ other : Option ActionResult,
      Scheduler.resume st p other = Scheduler.resume st p (some res)) ∧
    runningLookup (Scheduler.resume st p (some res)) p.executionId
      p.taskId = some ⟨p.executionId, p.nodeId, p.taskId⟩ := by
  refine ⟨(pushTask_frame _ _).2.2.1, (pushTask_frame _ _).2.1,
    fun other => rfl, ?_⟩
  exact runningLookup_pushTask st ⟨p.executionId, p.nodeId, p.taskId⟩

/-- C7 witness: instantiation of `C7_resume_ignores_result` at the empty
state, a concrete resume parameter and a concrete INTERRUPTED result. -/
theorem C7_resume_ignores_result_witness :
    (Scheduler.resume st0 ⟨"e1", "n1", "t1"⟩ (some ⟨FlowStatus.INTERRUPTED,
        none, none, some "d2"⟩)).events = st0.events ∧
    (Scheduler.resume st0 ⟨"e1", "n1", "t1"⟩ (some ⟨FlowStatus.INTERRUPTED,
        none, none, some "d2"⟩)).recorder = st0.recorder ∧
    (∀ other : Option ActionResult,
      Scheduler.resume st0 ⟨"e1", "n1", "t1"⟩ other =
        Scheduler.resume st0 ⟨"e1", "n1", "t1"⟩
          (some ⟨FlowStatus.INTERRUPTED, none, none, some "d2"⟩)) ∧
    runningLookup (Scheduler.resume st0 ⟨"e1", "n1", "t1"⟩
        (some ⟨FlowStatus.INTERRUPTED, none, none, some "d2"⟩)) "e1" "t1" =
      some ⟨"e1", "n1", "t1"⟩ :=
  C7_resume_ignores_result st0 ⟨"e1", "n1", "t1"⟩
    ⟨FlowStatus.INTERRUPTED, none, none, some "d2"⟩ rfl

/-- The storage after the recorder persisted one task t1 of instance e1. -/
def storage1 : Storage :=
  Recorder.addTask [] ⟨"e1", "t1", "n1", some "custom", 1000, some "p", none⟩

/-- C8: clear() is claimed to wipe the instance indices AND every TaskRecord
under their task ids. Evaluating clear on a storage holding one recorded task
shows the global instance list and the execution's task index are removed,
but the TaskRecord stored under "t1" survives: clear removes the executionId
index entry before reading it back, so its per-task removal loop always runs
on an empty list. -/
theorem C8_clear_leaves_task_records :
    storage.getItem (Recorder.clear storage1) LOGICFLOW_ENGINE_INSTANCES =
      none ∧
    storage.getItem (Recorder.clear storage1) "e1" = none ∧
    Recorder.getTask (Recorder.clear storage1) "t1" =
      some ⟨"e1", "t1", "n1", some "custom", 1000, some "p", none⟩ := by
  decide

/-- Instance e1 seeded with one node. -/
def s9a : SchedulerState := Scheduler.addTask st0 ⟨"e1", "n1"⟩

/-- After one launch whose node is interrupted: queue entry emptied (but kept)
and running entry emptied (but kept). -/
def s9b : SchedulerState := Scheduler.run oracleInterrupt s9a ⟨"e1", none,
  none⟩

/-- After a further launch, which emits instance-complete for e1 and evicts
the empty running entry. -/
def s9c : SchedulerState := Scheduler.run oracleInterrupt s9b ⟨"e1", none,
  none⟩

/-- C9 counterexample: instance e1 is logically ended (its queue holds no
pending node and no task is running — a later launch even emitted
instance-complete for it), the running-task map has evicted its entry, yet
the ready-queue map still retains an (empty) entry for e1; so the claim that
both maps evict their empty entries for an ended instance is false on the
code. -/
theorem C9_counterexample_queue_entry_retained :
    mapGet s9b.nodeQueueMap "e1" = some [] ∧
    mapGet s9b.taskRunningMap "e1" = some [] ∧
    mapGet s9c.nodeQueueMap "e1" = some [] ∧
    mapGet s9c.taskRunningMap "e1" = none := by
  decide

/-- C9 amended: the two maps behave asymmetrically on a settled instance
(queue entry present but empty, running entry present but empty): the
launch-time check hasRunningTask does evict the empty running-registry entry,
but getNextNode returns without touching the map, leaving the empty
ready-queue entry in place — the ready-queue map never evicts entries. -/
theorem C9_eviction_asymmetry (st : SchedulerState) (eid : String)
    (hq : mapGet st.nodeQueueMap eid = some [])
    (hr : mapGet st.taskRunningMap eid = some []) :
    Scheduler.getNextNode st eid = (none, st) ∧
    mapGet (Scheduler.getNextNode st eid).2.nodeQueueMap eid = some [] ∧
    Scheduler.hasRunningTask st eid =
      (false, withRunningMap st (mapDelete st.taskRunningMap eid)) ∧
    mapGet (Scheduler.hasRunningTask st eid).2.taskRunningMap eid = none := by
  have h1 : Scheduler.getNextNode st eid = (none, st) :=
    getNextNode_empty st eid (by simp [hq])
  have h2 : Scheduler.hasRunningTask st eid =
      (false, withRunningMap st (mapDelete st.taskRunningMap eid)) := by
    unfold Scheduler.hasRunningTask withRunningMap
    rw [hr]
    simp
  refine ⟨h1, by rw [h1]; exact hq, h2, ?_⟩
  rw [h2]
  simpa [withRunningMap] using mapGet_mapDelete_self st.taskRunningMap eid

/-- C9 amended witness: instantiation of `C9_eviction_asymmetry` at the
settled state s9b, whose queue and running entries for e1 are both present
and empty. -/
theorem C9_eviction_asymmetry_witness :
    Scheduler.getNextNode s9b "e1" = (none, s9b) ∧
    mapGet (Scheduler.getNextNode s9b "e1").2.nodeQueueMap "e1" = some [] ∧
    Scheduler.hasRunningTask s9b "e1" =
      (false, withRunningMap s9b (mapDelete s9b.taskRunningMap "e1")) ∧
    mapGet (Scheduler.hasRunningTask s9b "e1").2.taskRunningMap "e1" =
      none :=
  C9_eviction_asymmetry s9b "e1" (by decide) (by decide)

/-- C10: launching an instance the dispatcher has never seen (no ready-queue
entry and no running-registry entry for this executionId) immediately emits
instance-complete with status COMPLETED and the caller-passed optional
nodeId/taskId (absent when omitted), and changes nothing else — nothing is
launched, minted, enqueued or persisted. -/
theorem C10_run_unknown_instance_completes (oracle : Oracle)
    (st : SchedulerState) (p : RunParams)
    (hq : mapGet st.nodeQueueMap p.executionId = none)
    (hr : mapGet st.taskRunningMap p.executionId = none) :
    Scheduler.run oracle st p = withEvents st (st.events ++
      [Event.instanceComplete p.executionId p.nodeId p.taskId
        FlowStatus.COMPLETED]) :=
  run_complete_none oracle st p (by simp [hq]) hr

/-- C10 witness: instantiation of `C10_run_unknown_instance_completes` at the
empty state and an unseen executionId, with and without the optional ids
supplied at one concrete choice. -/
theorem C10_run_unknown_instance_completes_witness :
    Scheduler.run oracleInterrupt st0 ⟨"e9", some "n9", some "t9"⟩ =
      withEvents st0 (st0.events ++
        [Event.instanceComplete "e9" (some "n9") (some "t9")
          FlowStatus.COMPLETED]) :=
  C10_run_unknown_instance_completes oracleInterrupt st0
    ⟨"e9", some "n9", some "t9"⟩ rfl rfl
